import Mathlib

/-!
Shallow embedding of the PyTorch quickstart notebook
`introduction-to-pytorch-8-full-process.ipynb` (pytorch-fundamentals).

Numeric values are modelled by `ℚ`; tensors by (nested) lists.  The external
autograd engine and the cross-entropy loss are abstract parameters
(`GradFn`, `LossFn`); the control flow of the notebook's `train`/`test`
loops, the network architecture, the dataloader batching and the inference
cell are translated from the source.
-/

/-- A single image: a grid of pixel intensities (the notebook's images are
`1 × 28 × 28` tensors; the embedding does not fix the shape). -/
abbrev Image := List (List ℚ)

/-- A labelled example: an image and a class index. -/
abbrev Example := Image × ℕ

/-- Modelled from the spec: `datasets.FashionMNIST` is an external dataset
source; `train=True` selects the training split and `train=False` the
held-out test split.  The contents are opaque to the notebook. -/
structure FashionMNIST where
  trainSplit : List Example
  testSplit : List Example

/-- Source: `training_data = datasets.FashionMNIST(root="data", train=True, ...)`. -/
def training_data (d : FashionMNIST) : List Example := d.trainSplit

/-- Source: `test_data = datasets.FashionMNIST(root="data", train=False, ...)`. -/
def test_data (d : FashionMNIST) : List Example := d.testSplit

/-- Source: `batch_size = 64`. -/
def batch_size : ℕ := 64

/-- A DataLoader: a dataset and a batch size (`DataLoader(dataset, batch_size)`). -/
structure DataLoader where
  dataset : List Example
  batchSize : ℕ

/-- Split a list into consecutive chunks of size `k` (the last chunk may be
shorter).  This is the batching the notebook's `DataLoader` performs (no
`shuffle=True` is passed, so iteration order is the dataset order). -/
def toBatches (k : ℕ) (l : List Example) : List (List Example) :=
  if h : l = [] ∨ k = 0 then [] else
    l.take k :: toBatches k (l.drop k)
termination_by l.length
decreasing_by
  simp only [not_or] at h
  have h1 : 0 < l.length := List.length_pos.mpr h.1
  have h2 : 0 < k := Nat.pos_of_ne_zero h.2
  simpa [List.length_drop] using Nat.sub_lt h1 h2

/-- The sequence of batches a DataLoader yields. -/
def DataLoader.batches (dl : DataLoader) : List (List Example) :=
  toBatches dl.batchSize dl.dataset

/-- The images of a batch (the stacked `X` tensor). -/
def batchImages (b : List Example) : List Image := b.map Prod.fst

/-- The labels of a batch (the `y` tensor). -/
def batchLabels (b : List Example) : List ℕ := b.map Prod.snd

/-- Source: `train_dataloader = DataLoader(training_data, batch_size=batch_size)`. -/
def train_dataloader (d : FashionMNIST) : DataLoader :=
  ⟨training_data d, batch_size⟩

/-- Source: `test_dataloader = DataLoader(training_data, batch_size=batch_size)` —
exactly as written in the notebook cell: the argument is `training_data`. -/
def test_dataloader (d : FashionMNIST) : DataLoader :=
  ⟨training_data d, batch_size⟩

/-- Dot product of two vectors (truncating to the shorter). -/
def dot (v w : List ℚ) : ℚ := (List.zipWith (· * ·) v w).sum

/-- The `nn.Linear` layer: rows of the weight matrix paired with the bias entries;
output entry `i` is `⟨Wᵢ, x⟩ + bᵢ`. -/
def linear (W : List (List ℚ)) (b : List ℚ) (x : List ℚ) : List ℚ :=
  List.zipWith (fun row bi => dot row x + bi) W b

/-- The `nn.ReLU` activation: elementwise `max 0`. -/
def relu (v : List ℚ) : List ℚ := v.map (fun a => max 0 a)

/-- The `nn.Flatten(start_dim=1)` layer applied to one sample: concatenate the rows. -/
def flatten (img : Image) : List ℚ := img.flatten

/-- The learnable parameters of the notebook's `NeuralNetwork`:
`Linear(28*28, 512) → ReLU → Linear(512, 512) → ReLU → Linear(512, 10) → ReLU`. -/
structure NeuralNetwork where
  w1 : List (List ℚ)
  b1 : List ℚ
  w2 : List (List ℚ)
  b2 : List ℚ
  w3 : List (List ℚ)
  b3 : List ℚ

/-- The `linear_relu_stack` sequential module of `NeuralNetwork.__init__`. -/
def NeuralNetwork.linear_relu_stack (m : NeuralNetwork) (x : List ℚ) : List ℚ :=
  relu (linear m.w3 m.b3 (relu (linear m.w2 m.b2 (relu (linear m.w1 m.b1 x)))))

/-- The method `NeuralNetwork.forward` on one sample: flatten, then the stack. -/
def NeuralNetwork.forwardSingle (m : NeuralNetwork) (img : Image) : List ℚ :=
  m.linear_relu_stack (flatten img)

/-- Evaluation of `model(X)` on a batch: the stack applied to each flattened sample. -/
def NeuralNetwork.forward (m : NeuralNetwork) (xs : List Image) : List (List ℚ) :=
  xs.map m.forwardSingle

/-- Shape well-formedness of the parameters, as fixed by the source:
`Linear(784, 512)`, `Linear(512, 512)`, `Linear(512, 10)`. -/
def NeuralNetwork.WF (m : NeuralNetwork) : Prop :=
  m.w1.length = 512 ∧ (∀ r ∈ m.w1, r.length = 784) ∧ m.b1.length = 512 ∧
  m.w2.length = 512 ∧ (∀ r ∈ m.w2, r.length = 512) ∧ m.b2.length = 512 ∧
  m.w3.length = 10 ∧ (∀ r ∈ m.w3, r.length = 512) ∧ m.b3.length = 10

/-- The `torch.argmax` reduction over a vector: the index of the first maximal entry. -/
def argmax : List ℚ → ℕ
  | [] => 0
  | [_] => 0
  | a :: b :: t =>
    if a < (b :: t).getD (argmax (b :: t)) 0 then argmax (b :: t) + 1 else 0

/-- Source: `(pred.argmax(1) == y).type(torch.float).sum()`, the number of rows whose
top-1 prediction equals the label, as a numeric value. -/
def countCorrect (preds : List (List ℚ)) (ys : List ℕ) : ℚ :=
  (List.zipWith (fun p y => if argmax p = y then (1 : ℚ) else 0) preds ys).sum

/-- The loss function is an external collaborator (`nn.CrossEntropyLoss`):
it maps a batch of predictions and the batch labels to a scalar. -/
abbrev LossFn := List (List ℚ) → List ℕ → ℚ

/-- The autograd engine is an external collaborator: `loss.backward()`
produces, from the current parameters and the current batch, the gradient
of that batch's loss with respect to the parameters. -/
abbrev GradFn := NeuralNetwork → List Example → NeuralNetwork

/-- One SGD step on a vector: `w - lr * g` elementwise. -/
def vStep (lr : ℚ) (v g : List ℚ) : List ℚ :=
  List.zipWith (fun w gw => w - lr * gw) v g

/-- One SGD step on a matrix, row by row. -/
def mStep (lr : ℚ) (W G : List (List ℚ)) : List (List ℚ) :=
  List.zipWith (vStep lr) W G

/-- The update `optimizer.step()` for `torch.optim.SGD(model.parameters(), lr)`. -/
def sgdUpdate (lr : ℚ) (p g : NeuralNetwork) : NeuralNetwork :=
  ⟨mStep lr p.w1 g.w1, vStep lr p.b1 g.b1,
   mStep lr p.w2 g.w2, vStep lr p.b2 g.b2,
   mStep lr p.w3 g.w3, vStep lr p.b3 g.b3⟩

/-- Elementwise addition of two vectors. -/
def vAdd (v w : List ℚ) : List ℚ := List.zipWith (· + ·) v w

/-- Elementwise addition of two matrices. -/
def mAdd (V W : List (List ℚ)) : List (List ℚ) := List.zipWith vAdd V W

/-- Gradient accumulation: `loss.backward()` adds the new gradient onto the
stored `.grad` buffers. -/
def nnAdd (p g : NeuralNetwork) : NeuralNetwork :=
  ⟨mAdd p.w1 g.w1, vAdd p.b1 g.b1,
   mAdd p.w2 g.w2, vAdd p.b2 g.b2,
   mAdd p.w3 g.w3, vAdd p.b3 g.b3⟩

/-- The call `optimizer.zero_grad()`: the `.grad` buffers become zero tensors shaped
like the parameters. -/
def nnZeroLike (p : NeuralNetwork) : NeuralNetwork :=
  ⟨p.w1.map (List.map (fun _ => 0)), p.b1.map (fun _ => 0),
   p.w2.map (List.map (fun _ => 0)), p.b2.map (fun _ => 0),
   p.w3.map (List.map (fun _ => 0)), p.b3.map (fun _ => 0)⟩

/-- The state the training loop threads: the model parameters, the stored
gradient buffers, and the lines printed so far.  A printed line carries the
loss value, `batch * len(X)` and the dataset size. -/
structure TrainResult where
  params : NeuralNetwork
  grads : NeuralNetwork
  logLines : List (ℚ × ℕ × ℕ)

/-- The body of `train`, one iteration of `for batch, (X, y) in
enumerate(dataloader)`: forward, loss, `zero_grad`, `backward`, `step`,
and the `batch % 100 == 0` print. -/
def trainAux (gf : GradFn) (lr : ℚ) (lossFn : LossFn) (size : ℕ) :
    NeuralNetwork → NeuralNetwork → ℕ → List (List Example) → TrainResult
  | p, g, _, [] => ⟨p, g, []⟩
  | p, g, idx, b :: bs =>
    let pred := p.forward (batchImages b)
    let loss := lossFn pred (batchLabels b)
    let g1 := nnZeroLike p
    let g2 := nnAdd g1 (gf p b)
    let p2 := sgdUpdate lr p g2
    let rest := trainAux gf lr lossFn size p2 g2 (idx + 1) bs
    ⟨rest.params, rest.grads,
     (if idx % 100 = 0 then [(loss, idx * (batchImages b).length, size)] else [])
       ++ rest.logLines⟩

/-- Source: `train(dataloader, model, loss_fn, optimizer)`:
`size = len(dataloader.dataset)`, then iterate the batches. -/
def train (gf : GradFn) (lr : ℚ) (lossFn : LossFn) (dl : DataLoader)
    (p g : NeuralNetwork) : TrainResult :=
  trainAux gf lr lossFn dl.dataset.length p g 0 dl.batches

/-- The per-batch trace of the run: for each batch in order, the loss the
loop computes at the parameters current at that batch, and the batch length. -/
def trainTrace (gf : GradFn) (lr : ℚ) (lossFn : LossFn) :
    NeuralNetwork → List (List Example) → List (ℚ × ℕ)
  | _, [] => []
  | p, b :: bs =>
    (lossFn (p.forward (batchImages b)) (batchLabels b), (batchImages b).length)
      :: trainTrace gf lr lossFn
           (sgdUpdate lr p (nnAdd (nnZeroLike p) (gf p b))) bs

/-- A module together with its train/eval mode flag (`model.eval()` clears
the flag; `nn.Module` instances start in training mode). -/
structure ModuleState where
  net : NeuralNetwork
  trainingMode : Bool

/-- Source: `test(dataloader, model)`: `size = len(dataloader.dataset)`,
`model.eval()`, then with gradients disabled accumulate `test_loss` and
`correct` over all batches and divide both by `size`.  Returns the updated
module state and the pair `(test_loss, correct)` after division. -/
def testRun (lossFn : LossFn) (dl : DataLoader) (ms : ModuleState) :
    ModuleState × ℚ × ℚ :=
  let size := dl.dataset.length
  let ms2 := { ms with trainingMode := false }
  let acc := dl.batches.foldl
    (fun (a : ℚ × ℚ) b =>
      let pred := ms2.net.forward (batchImages b)
      (a.1 + lossFn pred (batchLabels b),
       a.2 + countCorrect pred (batchLabels b)))
    (0, 0)
  (ms2, acc.1 / (size : ℚ), acc.2 / (size : ℚ))

/-- The fixed ordered label table of the inference cell. -/
def classes : List String :=
  ["T-shirt/top", "Trouser", "Pullover", "Dress", "Coat",
   "Sandal", "Shirt", "Sneaker", "Bag", "Ankle boot"]

/-- The inference cell: `pred = model(x)` (a batch of one), then
`classes[pred[0].argmax(0)]`.  Gradients are disabled (`torch.no_grad`),
which has no observable effect in the pure embedding. -/
def inference (m : NeuralNetwork) (x : Image) : String :=
  let pred := m.forward [x]
  classes.getD (argmax (pred.getD 0 [])) ""

/-- A named parameter mapping (`model.state_dict()`): parameter names paired
with the flattened numeric contents of the corresponding tensors. -/
abbrev StateDict := List (String × List ℚ)

/-- A token of the serialized checkpoint stream: a parameter name or a
numeric value. -/
inductive CkptToken where
  | pname : String → CkptToken
  | pval : ℚ → CkptToken
deriving DecidableEq

/-- Modelled from the spec: `torch.save(model.state_dict(), path)` writes the
full named parameter mapping to a file.  The file format is owned by the
external tensor library; here it is a flat stream in which each parameter
name is followed by that parameter's values. -/
def save (sd : StateDict) : List CkptToken :=
  sd.flatMap (fun e => CkptToken.pname e.1 :: e.2.map CkptToken.pval)

/-- Read the run of value tokens at the head of the stream. -/
def readVals : List CkptToken → List ℚ × List CkptToken
  | CkptToken.pval q :: ts => ((readVals ts).1.cons q, (readVals ts).2)
  | ts => ([], ts)

theorem readVals_length_le : ∀ ts : List CkptToken, (readVals ts).2.length ≤ ts.length
  | [] => by simp [readVals]
  | CkptToken.pname _ :: _ => by simp [readVals]
  | CkptToken.pval q :: ts => by
    simpa [readVals] using Nat.le_succ_of_le (readVals_length_le ts)

/-- Modelled from the spec: `torch.load(path)` returns the named parameter
mapping stored in the checkpoint stream. -/
def load : List CkptToken → StateDict
  | [] => []
  | CkptToken.pval _ :: rest => load rest
  | CkptToken.pname s :: rest => (s, (readVals rest).1) :: load (readVals rest).2
termination_by ts => ts.length
decreasing_by
  · simp
  · exact Nat.lt_succ_of_le (readVals_length_le rest)

/-- The parameters of a model as a named mapping, in the order PyTorch
reports them for the notebook's architecture. -/
def NeuralNetwork.state_dict (m : NeuralNetwork) : StateDict :=
  [("linear_relu_stack.0.weight", m.w1.flatten), ("linear_relu_stack.0.bias", m.b1),
   ("linear_relu_stack.2.weight", m.w2.flatten), ("linear_relu_stack.2.bias", m.b2),
   ("linear_relu_stack.4.weight", m.w3.flatten), ("linear_relu_stack.4.bias", m.b3)]

/-- An all-zero parameter set with the source architecture's shapes; used to
instantiate theorems at a concrete model. -/
def zeroModel : NeuralNetwork :=
  ⟨List.replicate 512 (List.replicate 784 0), List.replicate 512 0,
   List.replicate 512 (List.replicate 512 0), List.replicate 512 0,
   List.replicate 10 (List.replicate 512 0), List.replicate 10 0⟩

/-- A concrete gradient oracle for instantiations: the zero gradient. -/
def zeroGradFn : GradFn := fun p _ => nnZeroLike p

/-- A concrete loss function for instantiations: constant zero. -/
def zeroLossFn : LossFn := fun _ _ => 0

/-! ### Lemmas about batching -/

theorem toBatches_nil (k : ℕ) : toBatches k [] = [] := by
  rw [toBatches]; simp

theorem toBatches_cons (k : ℕ) (l : List Example) (h : l ≠ []) :
    toBatches (k + 1) l = l.take (k + 1) :: toBatches (k + 1) (l.drop (k + 1)) := by
  rw [toBatches]; simp [h]

/-- Chunking and re-concatenating gives back the dataset: the batches of a
DataLoader with a positive batch size cover every example exactly once. -/
theorem toBatches_join (k : ℕ) : ∀ l : List Example, (toBatches (k + 1) l).flatten = l
  | l => by
    by_cases h : l = []
    · subst h; simp [toBatches_nil]
    · rw [toBatches_cons k l h]
      have ih := toBatches_join k (l.drop (k + 1))
      simp [ih]
termination_by l => l.length
decreasing_by
  have h1 : 0 < l.length := List.length_pos.mpr h
  simpa [List.length_drop] using Nat.sub_lt h1 (Nat.succ_pos k)

/-- The examples contained in the first `b` batches are exactly the first
`(k+1) * b` examples of the dataset. -/
theorem toBatches_take_join (k : ℕ) :
    ∀ (b : ℕ) (l : List Example),
      ((toBatches (k + 1) l).take b).flatten = l.take ((k + 1) * b)
  | 0, l => by simp
  | b + 1, l => by
    by_cases h : l = []
    · subst h; simp [toBatches_nil]
    · rw [toBatches_cons k l h]
      have ih := toBatches_take_join k b (l.drop (k + 1))
      have : (k + 1) * (b + 1) = (k + 1) + (k + 1) * b := by ring
      simp [ih, this, List.take_add]

/-- The `b`-th batch, when the dataset still has a full batch of examples
past position `(k+1) * b`, is the slice of length `k+1` starting there. -/
theorem toBatches_getD (k : ℕ) :
    ∀ (b : ℕ) (l : List Example), (k + 1) * b < l.length →
      (toBatches (k + 1) l).getD b [] = (l.drop ((k + 1) * b)).take (k + 1)
  | 0, l, h => by
    have hne : l ≠ [] := by
      intro hl; subst hl; simp at h
    rw [toBatches_cons k l hne]; simp
  | b + 1, l, h => by
    have hne : l ≠ [] := by
      intro hl; subst hl; simp at h
    rw [toBatches_cons k l hne]
    have hlt : (k + 1) * b < (l.drop (k + 1)).length := by
      have : (k + 1) * (b + 1) = (k + 1) + (k + 1) * b := by ring
      rw [this] at h
      simpa [List.length_drop] using Nat.lt_sub_of_add_lt (by omega)
    have ih := toBatches_getD k b (l.drop (k + 1)) hlt
    have harith : (k + 1) + (k + 1) * b = (k + 1) * (b + 1) := by ring
    rw [List.getD_cons_succ, ih, List.drop_drop, harith]

/-- A left fold accumulating two sums componentwise equals the pair of the
mapped sums. -/
theorem foldl_pair_sum {β : Type} (f g : β → ℚ) :
    ∀ (l : List β) (x y : ℚ),
      l.foldl (fun (a : ℚ × ℚ) b => (a.1 + f b, a.2 + g b)) (x, y)
        = (x + (l.map f).sum, y + (l.map g).sum)
  | [], x, y => by simp
  | b :: l, x, y => by
    rw [List.foldl_cons, foldl_pair_sum f g l (x + f b) (y + g b)]
    simp [add_assoc]

/-! ### Lemmas about argmax -/

theorem argmax_lt_length : ∀ v : List ℚ, v ≠ [] → argmax v < v.length
  | [], h => absurd rfl h
  | [_], _ => by simp [argmax]
  | a :: b :: t, _ => by
    rw [argmax]
    split
    · have ih := argmax_lt_length (b :: t) (by simp)
      simpa using Nat.succ_lt_succ ih
    · simp

/-- The entry `argmax` selects is maximal: every entry of the vector is at
most the entry at the selected index. -/
theorem argmax_le : ∀ (v : List ℚ) (j : ℕ), j < v.length →
    v.getD j 0 ≤ v.getD (argmax v) 0
  | [], j, h => by simp at h
  | [a], j, h => by
    have hj : j = 0 := by simp at h; omega
    subst hj; simp [argmax]
  | a :: b :: t, j, h => by
    rw [argmax]
    split
    · rename_i hlt
      match j with
      | 0 => simpa using le_of_lt hlt
      | j + 1 =>
        have ih := argmax_le (b :: t) j (by simpa using h)
        simpa using ih
    · rename_i hge
      push_neg at hge
      match j with
      | 0 => simp
      | j + 1 =>
        have ih := argmax_le (b :: t) j (by simpa using h)
        simpa using le_trans ih hge

/-! ### Evaluating the all-zero model -/

theorem dot_zeroRow : ∀ (n : ℕ) (x : List ℚ), dot (List.replicate n 0) x = 0
  | 0, _ => by simp [dot]
  | n + 1, [] => by simp [dot]
  | n + 1, a :: t => by
    rw [List.replicate_succ]
    show (List.zipWith (· * ·) ((0 : ℚ) :: List.replicate n 0) (a :: t)).sum = 0
    rw [List.zipWith_cons_cons, List.sum_cons, zero_mul, zero_add]
    exact dot_zeroRow n t

theorem linear_zero (n k : ℕ) (x : List ℚ) :
    linear (List.replicate n (List.replicate k 0)) (List.replicate n 0) x
      = List.replicate n 0 := by
  simp [linear, List.zipWith_replicate, dot_zeroRow]

theorem relu_replicate_zero (n : ℕ) :
    relu (List.replicate n (0 : ℚ)) = List.replicate n 0 := by
  simp [relu, List.map_replicate]

theorem forwardSingle_zeroModel (img : Image) :
    zeroModel.forwardSingle img = List.replicate 10 0 := by
  show relu (linear (List.replicate 10 (List.replicate 512 0)) (List.replicate 10 0)
      (relu (linear (List.replicate 512 (List.replicate 512 0)) (List.replicate 512 0)
        (relu (linear (List.replicate 512 (List.replicate 784 0)) (List.replicate 512 0)
          (flatten img)))))) = List.replicate 10 0
  rw [linear_zero, relu_replicate_zero]

theorem zeroModel_WF : zeroModel.WF := by
  refine ⟨List.length_replicate _ _, fun r hr => ?_, List.length_replicate _ _,
    List.length_replicate _ _, fun r hr => ?_, List.length_replicate _ _,
    List.length_replicate _ _, fun r hr => ?_, List.length_replicate _ _⟩ <;>
    rw [List.eq_of_mem_replicate hr] <;> exact List.length_replicate _ _

/-- Under the source's shapes, the network output has exactly 10 entries. -/
theorem forwardSingle_length (m : NeuralNetwork) (hm : m.WF) (img : Image) :
    (m.forwardSingle img).length = 10 := by
  obtain ⟨_, _, _, _, _, _, h7, _, h9⟩ := hm
  simp [NeuralNetwork.forwardSingle, NeuralNetwork.linear_relu_stack, relu,
    linear, List.length_zipWith, h7, h9]

/-! ### Lemmas about the training loop -/

/-- The parameters the training loop produces are a left fold of a step
function that depends only on the current parameters and the current batch;
in particular the stored gradient buffers entering an iteration never reach
the parameter update, because `zero_grad` clears them first. -/
theorem trainAux_params (gf : GradFn) (lr : ℚ) (lossFn : LossFn) (size : ℕ) :
    ∀ (bs : List (List Example)) (p g : NeuralNetwork) (idx : ℕ),
      (trainAux gf lr lossFn size p g idx bs).params
        = bs.foldl (fun q b => sgdUpdate lr q (nnAdd (nnZeroLike q) (gf q b))) p
  | [], p, g, idx => rfl
  | b :: bs, p, g, idx => by
    rw [trainAux, List.foldl_cons]
    exact trainAux_params gf lr lossFn size bs _ _ (idx + 1)

/-- The printed lines of the training loop are exactly the entries of the
per-batch trace whose batch index is a multiple of 100, each carrying that
batch's loss, `index * len(X)` and the dataset size. -/
theorem trainAux_log (gf : GradFn) (lr : ℚ) (lossFn : LossFn) (size : ℕ) :
    ∀ (bs : List (List Example)) (p g : NeuralNetwork) (idx : ℕ),
      (trainAux gf lr lossFn size p g idx bs).logLines
        = (List.enumFrom idx (trainTrace gf lr lossFn p bs)).filterMap
            (fun e => if e.1 % 100 = 0 then some (e.2.1, e.1 * e.2.2, size) else none)
  | [], p, g, idx => rfl
  | b :: bs, p, g, idx => by
    rw [trainAux, trainTrace, List.enumFrom_cons, List.filterMap_cons]
    have ih := trainAux_log gf lr lossFn size bs
      (sgdUpdate lr p (nnAdd (nnZeroLike p) (gf p b))) (nnAdd (nnZeroLike p) (gf p b))
      (idx + 1)
    by_cases h : idx % 100 = 0 <;> simp [h, ih]

/-! ### Lemmas about the checkpoint stream -/

theorem readVals_map_pval (vs : List ℚ) (ts : List CkptToken) :
    readVals (vs.map CkptToken.pval ++ ts)
      = (vs ++ (readVals ts).1, (readVals ts).2) := by
  induction vs with
  | nil => simp
  | cons q vs ih => simp [readVals, ih]

theorem readVals_save (sd : StateDict) : readVals (save sd) = ([], save sd) := by
  cases sd with
  | nil => rfl
  | cons e rest => rw [save]; rfl

/-- Round trip of the checkpoint stream: deserializing a serialized state
dict recovers it exactly. -/
theorem load_save (sd : StateDict) : load (save sd) = sd := by
  induction sd with
  | nil => simp [save, load]
  | cons e rest ih =>
    obtain ⟨n, vs⟩ := e
    have hsave : save ((n, vs) :: rest)
        = CkptToken.pname n :: (vs.map CkptToken.pval ++ save rest) := by
      simp [save]
    rw [hsave, load, readVals_map_pval, readVals_save]
    simp [ih]

/-- A dataset instance whose two splits visibly differ, for instantiating
statements about the data stage. -/
def sampleSplit : FashionMNIST := ⟨[([[0]], 0)], [([[1]], 1)]⟩

/-- A small concrete dataset (one full batch of 64 identical examples). -/
def sampleDataset : List Example := List.replicate 64 ([[0]], 0)

/-! ### Claims -/

/-- C1: the claim states that the evaluation pass draws its batches from the
held-out test split.  The source constructs
`test_dataloader = DataLoader(training_data, batch_size=batch_size)`, so at
any dataset whose two splits differ the evaluation batch source is the
training split, not the test split: the code contradicts the claim (and its
own markdown, which announces evaluation on the test dataset). -/
theorem C1_eval_batch_source_is_training_split :
    (test_dataloader sampleSplit).dataset = training_data sampleSplit
      ∧ (test_dataloader sampleSplit).dataset ≠ test_data sampleSplit := by
  refine ⟨rfl, ?_⟩
  simp [test_dataloader, train_dataloader, training_data, test_data, sampleSplit]

/-- C2: for every batch source (a dataset batched at the source's size 64)
and every model and loss function, the evaluation loop returns the
accumulated loss divided by the number of examples and the accumulated
correct-prediction count divided by the number of examples; the batches it
iterates cover exactly the dataset, so the divisor is the number of
examples evaluated. -/
theorem C2_eval_reports_mean_loss_and_accuracy_fraction (lossFn : LossFn)
    (d : List Example) (ms : ModuleState) :
    (testRun lossFn ⟨d, 64⟩ ms).2
      = ((((DataLoader.batches ⟨d, 64⟩).map
            (fun b => lossFn (ms.net.forward (batchImages b)) (batchLabels b))).sum
            / (d.length : ℚ)),
         (((DataLoader.batches ⟨d, 64⟩).map
            (fun b => countCorrect (ms.net.forward (batchImages b)) (batchLabels b))).sum
            / (d.length : ℚ)))
    ∧ ((DataLoader.batches ⟨d, 64⟩).map List.length).sum = d.length := by
  constructor
  · have h := foldl_pair_sum
      (fun b => lossFn (ms.net.forward (batchImages b)) (batchLabels b))
      (fun b => countCorrect (ms.net.forward (batchImages b)) (batchLabels b))
      (DataLoader.batches ⟨d, 64⟩) 0 0
    simp only [testRun]
    rw [h]
    simp
  · have hj : (DataLoader.batches ⟨d, 64⟩).flatten = d := toBatches_join 63 d
    rw [← List.length_flatten, hj]

/-- C3: checkpoint round trip.  Serializing a named parameter mapping and
deserializing the stream recovers a mapping with the same names in the same
order, the same value list for every name, and in fact the identical
mapping.  (`torch.save`/`torch.load` themselves are external; the stream
format is modelled from the spec.) -/
theorem C3_checkpoint_roundtrip (sd : StateDict) :
    (load (save sd)).map Prod.fst = sd.map Prod.fst
      ∧ (∀ n : String, (load (save sd)).lookup n = sd.lookup n)
      ∧ load (save sd) = sd := by
  rw [load_save]
  exact ⟨rfl, fun _ => rfl, rfl⟩

/-- C4: one training step per batch, in order: forward output, scalar loss,
gradients of that loss, parameter update, gradients discarded before the
next batch (the loop body clears the buffers with `zero_grad` before
`backward`).  Consequently the parameter evolution is a fold whose step
depends only on the current parameters and the current batch, and is
independent of whatever gradient buffers the loop starts from: no gradient
from one batch contributes to another batch's update. -/
theorem C4_train_updates_use_only_current_batch_gradient (gf : GradFn)
    (lr : ℚ) (lossFn : LossFn) (dl : DataLoader) (p g1 g2 : NeuralNetwork) :
    (train gf lr lossFn dl p g1).params
        = dl.batches.foldl
            (fun q b => sgdUpdate lr q (nnAdd (nnZeroLike q) (gf q b))) p
      ∧ (train gf lr lossFn dl p g1).params = (train gf lr lossFn dl p g2).params := by
  have h1 := trainAux_params gf lr lossFn dl.dataset.length dl.batches p g1 0
  have h2 := trainAux_params gf lr lossFn dl.dataset.length dl.batches p g2 0
  exact ⟨h1, h1.trans h2.symm⟩

/-- C5: the evaluation loop is read-only with respect to the model
parameters: the module state it returns (after `model.eval()` clears the
training-mode flag) carries exactly the parameters it was given. -/
theorem C5_eval_preserves_parameters (lossFn : LossFn) (dl : DataLoader)
    (ms : ModuleState) : (testRun lossFn dl ms).1.net = ms.net := rfl

/-- C6: the model is a feed-forward function: it flattens the input image
into a vector, passes it through two 512-wide hidden layers with ReLU
nonlinearities and a final linear layer to 10 outputs, and returns those
outputs unnormalized (no softmax or class selection inside the model); for
well-formed parameters the output vector has exactly 10 entries. -/
theorem C6_model_flattens_and_outputs_10_logits (m : NeuralNetwork)
    (hm : m.WF) (img : Image) :
    m.forwardSingle img
        = relu (linear m.w3 m.b3
            (relu (linear m.w2 m.b2 (relu (linear m.w1 m.b1 (flatten img))))))
      ∧ (m.forwardSingle img).length = 10 :=
  ⟨rfl, forwardSingle_length m hm img⟩

theorem C6_witness :
    zeroModel.WF ∧
      (zeroModel.forwardSingle [[1]]
          = relu (linear zeroModel.w3 zeroModel.b3
              (relu (linear zeroModel.w2 zeroModel.b2
                (relu (linear zeroModel.w1 zeroModel.b1 (flatten [[1]]))))))
        ∧ (zeroModel.forwardSingle [[1]]).length = 10) :=
  ⟨zeroModel_WF, C6_model_flattens_and_outputs_10_logits zeroModel zeroModel_WF [[1]]⟩

/-- C7: determinism of training.  The embedded run is sequential and
deterministic (the DataLoader is not shuffled and the update rule is a
function), so two runs from the same initial parameters and gradient
buffers over the same batch sequence end in identical parameters. -/
theorem C7_training_is_deterministic (gf : GradFn) (lr : ℚ) (lossFn : LossFn)
    (dl : DataLoader) (p1 p2 g1 g2 : NeuralNetwork)
    (hp : p1 = p2) (hg : g1 = g2) :
    (train gf lr lossFn dl p1 g1).params = (train gf lr lossFn dl p2 g2).params := by
  rw [hp, hg]

theorem C7_witness :
    zeroModel = zeroModel ∧
      (train zeroGradFn 1 zeroLossFn ⟨sampleDataset, 64⟩ zeroModel zeroModel).params
        = (train zeroGradFn 1 zeroLossFn ⟨sampleDataset, 64⟩ zeroModel zeroModel).params :=
  ⟨rfl, C7_training_is_deterministic zeroGradFn 1 zeroLossFn ⟨sampleDataset, 64⟩
    zeroModel zeroModel zeroModel zeroModel rfl rfl⟩

/-- C8: a progress line is emitted exactly at the batches whose index is a
multiple of 100, reporting that batch's loss, `index * len(X)` and the
dataset size; and for any logged batch that is full (which every batch with
a further full batch after it is, since only the last chunk is short),
`index * len(X)` equals the number of examples processed before it. -/
theorem C8_progress_log_every_100th_batch (gf : GradFn) (lr : ℚ)
    (lossFn : LossFn) (d : List Example) (p g : NeuralNetwork) :
    (train gf lr lossFn ⟨d, 64⟩ p g).logLines
        = (List.enumFrom 0
            (trainTrace gf lr lossFn p (DataLoader.batches ⟨d, 64⟩))).filterMap
            (fun e => if e.1 % 100 = 0 then some (e.2.1, e.1 * e.2.2, d.length) else none)
      ∧ ∀ b : ℕ, 64 * (b + 1) ≤ d.length →
          b * ((DataLoader.batches ⟨d, 64⟩).getD b []).length
            = (((DataLoader.batches ⟨d, 64⟩).take b).flatten).length := by
  constructor
  · exact trainAux_log gf lr lossFn d.length (DataLoader.batches ⟨d, 64⟩) p g 0
  · intro b hb
    have hlt : (63 + 1) * b < d.length := by omega
    have hgd : (DataLoader.batches ⟨d, 64⟩).getD b []
        = (d.drop (64 * b)).take 64 := toBatches_getD 63 b d hlt
    have htj : ((DataLoader.batches ⟨d, 64⟩).take b).flatten = d.take (64 * b) :=
      toBatches_take_join 63 b d
    rw [hgd, htj]
    simp only [List.length_take, List.length_drop]
    have hmin1 : (64 : ℕ) ⊓ (d.length - 64 * b) = 64 := by omega
    have hmin2 : (64 * b) ⊓ d.length = 64 * b := by omega
    rw [hmin1, hmin2]
    ring

theorem C8_witness :
    64 * (0 + 1) ≤ sampleDataset.length ∧
      0 * ((DataLoader.batches ⟨sampleDataset, 64⟩).getD 0 []).length
        = (((DataLoader.batches ⟨sampleDataset, 64⟩).take 0).flatten).length :=
  ⟨by simp [sampleDataset],
   (C8_progress_log_every_100th_batch zeroGradFn 1 zeroLossFn sampleDataset
      zeroModel zeroModel).2 0 (by simp [sampleDataset])⟩

/-- C9: inference computes the model output on the single input, selects the
index of the first highest-scoring class, and returns the entry of the fixed
10-entry label table at that index; the selected index is within the table
and its score is at least every other score. -/
theorem C9_inference_returns_label_of_top_class (m : NeuralNetwork)
    (hm : m.WF) (x : Image) :
    inference m x = classes.getD (argmax (m.forwardSingle x)) ""
      ∧ argmax (m.forwardSingle x) < classes.length
      ∧ ∀ j : ℕ, j < (m.forwardSingle x).length →
          (m.forwardSingle x).getD j 0
            ≤ (m.forwardSingle x).getD (argmax (m.forwardSingle x)) 0 := by
  refine ⟨rfl, ?_, fun j hj => argmax_le _ j hj⟩
  have hlen := forwardSingle_length m hm x
  have hne : m.forwardSingle x ≠ [] := by
    intro h; rw [h] at hlen; simp at hlen
  have hlt := argmax_lt_length _ hne
  rw [hlen] at hlt
  simpa [classes] using hlt

theorem C9_witness :
    zeroModel.WF ∧
      (inference zeroModel [[1]]
          = classes.getD (argmax (zeroModel.forwardSingle [[1]])) ""
        ∧ argmax (zeroModel.forwardSingle [[1]]) < classes.length
        ∧ ∀ j : ℕ, j < (zeroModel.forwardSingle [[1]]).length →
            (zeroModel.forwardSingle [[1]]).getD j 0
              ≤ (zeroModel.forwardSingle [[1]]).getD
                  (argmax (zeroModel.forwardSingle [[1]])) 0) :=
  ⟨zeroModel_WF,
   C9_inference_returns_label_of_top_class zeroModel zeroModel_WF [[1]]⟩

/-- C10: the network ends in a ReLU after the output layer, so every
component of the model's output is non-negative for every input and every
parameter setting; the scores fed to the argmax are never negative. -/
theorem C10_model_outputs_are_nonnegative (m : NeuralNetwork) (x : Image)
    (q : ℚ) (hq : q ∈ m.forwardSingle x) : 0 ≤ q := by
  simp only [NeuralNetwork.forwardSingle, NeuralNetwork.linear_relu_stack,
    relu] at hq
  obtain ⟨a, _, rfl⟩ := List.mem_map.mp hq
  exact le_max_left 0 a

theorem C10_witness :
    (0 : ℚ) ∈ zeroModel.forwardSingle [[1]] ∧ (0 : ℚ) ≤ 0 := by
  have hmem : (0 : ℚ) ∈ zeroModel.forwardSingle [[1]] := by
    rw [forwardSingle_zeroModel]
    simp [List.mem_replicate]
  exact ⟨hmem, C10_model_outputs_are_nonnegative zeroModel [[1]] 0 hmem⟩
